import Mathlib

/-!
Verification development for the PYTHON_PROJECT repository
(`src/ORD.py`, `src/CRD/CRD.py`): a paginated-discovery and
bounded-parallel-extraction engine for chemical-reaction records.

The definitions below are a shallow embedding of the Python source:
pure computation is translated directly, imperative list-building loops
become `List.foldl` with explicit accumulators, Python dictionaries
become association lists or explicit update functions, and values that
may be absent (`dict.get`) become `Option`.
-/

namespace Py

/-! ## Python string primitives

Executable models of the Python string operations the source relies
on, written by structural recursion on character lists so that every
witness evaluates inside the kernel. -/

/-- Python `str.split(sep)` for a one-character separator: empty input gives
one empty piece, and every separator occurrence starts a new piece. -/
def splitOnChar (c : Char) : List Char → List (List Char)
  | [] => [[]]
  | a :: rest =>
    match splitOnChar c rest with
    | [] => if a = c then [[], []] else [[a]]
    | s :: ss => if a = c then [] :: s :: ss else (a :: s) :: ss

/-- Whether the first list occurs at the very start of the second. -/
def leadsWith : List Char → List Char → Bool
  | [], _ => true
  | _ :: _, [] => false
  | a :: as, b :: bs => a = b && leadsWith as bs

/-- Whether the first list occurs somewhere inside the second. -/
def hasSub (sub : List Char) : List Char → Bool
  | [] => sub.isEmpty
  | s@(_ :: rest) => leadsWith sub s || hasSub sub rest

/-- The Python substring test `sub in s`. -/
def pyContains (sub s : String) : Bool :=
  hasSub sub.toList s.toList

/-- Python `str.lower` (ASCII as in the data this system handles). -/
def lowerStr (s : String) : String :=
  String.mk (s.toList.map Char.toLower)

/-- Python truthiness of an optional string attribute value: `None`
and `""` are falsy. -/
def truthy : Option String → Bool
  | Option.none => false
  | Option.some s => !s.isEmpty

end Py

namespace ORD

/-! ## Pagination traversal (`get_all_dataset_ids`, ORD.py lines 101-217)

A listing page is modelled by the hrefs of its dataset links together
with whether a clickable, enabled "Next" control is present.  The
sequence of pages the site would serve as "Next" is repeatedly clicked
is the input list. -/

/-- One listing page as seen by the traversal loop of
`get_all_dataset_ids`: the `href` attributes of the matched
`a[href*='/dataset/ord_dataset-']` anchors, and whether a usable
"Next" control exists on the page. -/
structure Page where
  links : List String
  hasNext : Bool

/-- Source `href.split('/')[-1]` (ORD.py line 150): the identifier extracted
from a raw link URL. -/
def extractId (href : String) : String :=
  String.mk ((Py.splitOnChar '/' href.toList).getLastD [])

/-- The inner collection loop of `get_all_dataset_ids`
(ORD.py lines 146-154): for each link, extract the identifier and
append it to the running list only if it is non-empty and not already
present. -/
def collectIds (links : List String) (acc : List String) : List String :=
  links.foldl
    (fun a href =>
      let did := extractId href
      if did ≠ "" ∧ did ∉ a then a ++ [did] else a)
    acc

/-- The guard `if total_entries and current_count >= total_entries`
(ORD.py line 160): Python treats both `None` and `0` as falsy. -/
def totalReached (total : Option Nat) (cur : Nat) : Bool :=
  match total with
  | Option.none => false
  | Option.some t => t ≠ 0 && cur ≥ t

/-- The pagination loop of `get_all_dataset_ids` (ORD.py lines
128-211).  Returns the collected identifiers and the number of pages
visited.  Stop conditions, in source order: no links on the page;
the total-entries hint is reached; the de-duplicated count did not
grow since the previous page; no "Next" control was found. -/
def run (total : Option Nat) : List Page → List String → Nat → Nat → List String × Nat
  | [], acc, _prev, seen => (acc, seen)
  | p :: rest, acc, prev, seen =>
    if p.links = [] then (acc, seen + 1)
    else
      let acc2 := collectIds p.links acc
      let cur := acc2.length
      if totalReached total cur then (acc2, seen + 1)
      else if cur = prev then (acc2, seen + 1)
      else if p.hasNext then run total rest acc2 cur (seen + 1)
      else (acc2, seen + 1)

/-- Entry point corresponding to `get_all_dataset_ids`: start with an
empty collection and `prev_count = 0` (ORD.py lines 124-126). -/
def get_all_dataset_ids (total : Option Nat) (pages : List Page) : List String × Nat :=
  run total pages [] 0 0

/-! ## Result ordering (`scrape_single_dataset_parallel`, ORD.py lines 482-483)

`reaction_order = {rid: i for i, rid in enumerate(reaction_ids)}` builds
a dictionary; a comprehension lets a later duplicate key overwrite an
earlier one, which the explicit update function below reproduces.
`reactions_data.sort(key=...)` is a stable ascending sort by key, which
`List.mergeSort` reproduces. -/

/-- Dictionary building with index `i` for the remaining identifiers,
starting from the partial dictionary `f`. -/
def reaction_order_go [DecidableEq α] : Nat → List α → (α → Option Nat) → α → Option Nat
  | _, [], f => f
  | i, a :: rest, f => reaction_order_go (i + 1) rest (fun x => if x = a then Option.some i else f x)

/-- Source `reaction_order = ...` dictionary comprehension over `enumerate(reaction_ids)` (ORD.py line 482). -/
def reaction_order [DecidableEq α] (ids : List α) : α → Option Nat :=
  reaction_order_go 0 ids (fun _ => Option.none)

/-- Source `reaction_order.get(x['reaction_id'], 999999)` (ORD.py line 483). -/
def sortKey [DecidableEq α] (ids : List α) (x : α) : Nat :=
  (reaction_order ids x).getD 999999

/-- A collected per-reaction result, as sorted by
`scrape_single_dataset_parallel`; only the `reaction_id` field takes
part in the sort. -/
structure RxResult (α : Type) where
  reaction_id : α
  success : Bool
deriving DecidableEq

/-- Source `reactions_data.sort(key=lambda x: reaction_order.get(...))` sort call
(ORD.py line 483), as a stable ascending sort by the same key. -/
def sort_by_discovery [DecidableEq α] (ids : List α) (rs : List (RxResult α)) : List (RxResult α) :=
  rs.mergeSort (fun x y => decide (sortKey ids x.reaction_id ≤ sortKey ids y.reaction_id))

/-! ## Per-item fetch with retry (`scrape_reaction_data`, ORD.py lines 340-420)

The per-attempt body (navigation, waits, button reveal, payload read,
JSON parse) is collapsed into one oracle `fetch : Nat → Option D`:
`fetch attempt = some d` means attempt number `attempt` succeeds with
payload `d`, `none` means it raises.  The result dictionary is kept as
an explicit association list so that its exact key set is visible. -/

/-- A Python value stored in a result dictionary. -/
inductive PyVal (D : Type) where
  | pystr : String → PyVal D
  | pynat : Nat → PyVal D
  | pybool : Bool → PyVal D
  | pydata : D → PyVal D
  | pynone : PyVal D
deriving DecidableEq

/-- Whether a dictionary value is a stored number. -/
def PyVal.isNum : PyVal D → Bool
  | PyVal.pynat _ => true
  | _ => false

/-- The `for attempt in range(max_retries)` loop of
`scrape_reaction_data`: `attempt` is the current attempt number,
the second argument the number of attempts still allowed.  Returns the
successful payload (if any) and the number of attempts performed. -/
def scrape_loop (fetch : Nat → Option D) (attempt : Nat) : Nat → Option D × Nat
  | 0 => (Option.none, 0)
  | remaining + 1 =>
    match fetch attempt with
    | Option.some d => (Option.some d, 1)
    | Option.none =>
      let p := scrape_loop fetch (attempt + 1) remaining
      (p.1, p.2 + 1)

/-- Source `scrape_reaction_data(driver, reaction_id, max_retries=2)`
(ORD.py lines 340-420): returns the result dictionary together with
the number of attempts performed. -/
def scrape_reaction_data (fetch : Nat → Option D) (reaction_id : String) (max_retries : Nat) :
    List (String × PyVal D) × Nat :=
  match scrape_loop fetch 0 max_retries with
  | (Option.some d, n) =>
    ([("reaction_id", PyVal.pystr reaction_id), ("data", PyVal.pydata d),
      ("success", PyVal.pybool true)], n)
  | (Option.none, n) =>
    ([("reaction_id", PyVal.pystr reaction_id), ("data", PyVal.pynone),
      ("success", PyVal.pybool false), ("error", PyVal.pystr "Max retries exceeded")], n)

/-! ## Next-control detection (`get_all_dataset_ids`, ORD.py lines 176-198)

A candidate element (already filtered by the XPath text query for
"Next"/"next") is modelled by the attributes the loop reads. -/

/-- A candidate next-page control. -/
structure Control where
  displayed : Bool
  enabled : Bool
  disabledAttr : Option String
  ariaDisabled : Option String
  classAttr : Option String
  href : Option String
deriving DecidableEq

/-- The acceptance test of the button loop (ORD.py lines 181-187): the
candidate must be displayed and enabled, and must not be marked
disabled by attribute, aria attribute or class.  The target URL is
never inspected. -/
def clickable (b : Control) : Bool :=
  b.displayed && b.enabled &&
    !(Py.truthy b.disabledAttr || b.ariaDisabled == Option.some "true"
      || Py.pyContains "disabled" (Py.lowerStr (b.classAttr.getD "")))

/-- The button-selection loop of `get_all_dataset_ids` (ORD.py lines
179-198): the first acceptable candidate is clicked. -/
def find_next_button (btns : List Control) : Option Control :=
  btns.find? clickable

/-! ## Record normalisation (`format_reaction_data`, ORD.py lines 561-617)

The raw decoded JSON payload, with every `dict.get` access modelled by
an `Option` field. -/

/-- One entry of an `identifiersList`. -/
structure Identifier where
  type : Option Int
  value : Option String
deriving DecidableEq

/-- One entry of a `componentsList`. -/
structure Component where
  identifiersList : Option (List Identifier)
  reactionRole : Option Int
deriving DecidableEq

/-- One entry of `inputsMap`: a `[tab_name, input_data]` pair. -/
structure InputEntry where
  tabName : String
  componentsList : Option (List Component)
deriving DecidableEq

/-- One entry of a `productsList`. -/
structure Product where
  identifiersList : Option (List Identifier)
  isDesiredProduct : Option Bool
deriving DecidableEq

/-- One entry of `outcomesList`. -/
structure Outcome where
  productsList : Option (List Product)
deriving DecidableEq

/-- The decoded reaction payload. -/
structure ReactionData where
  reactionId : Option String
  inputsMap : Option (List InputEntry)
  outcomesList : Option (List Outcome)
deriving DecidableEq

/-- The dictionary handed to `format_reaction_data`: its `data` key
(absent on failure) and `success` flag. -/
structure ScrapeResult where
  data : Option ReactionData
  success : Bool
deriving DecidableEq

/-- Source `get_reaction_role_name(role_code)` (ORD.py lines 13-36), applied
to `component.get("reactionRole")` which may be `None`: the Python
f-string renders an unrecognised code, `None` included, after
`UNKNOWN_`. -/
def get_reaction_role_name (role : Option Int) : String :=
  match role with
  | Option.none => "UNKNOWN_None"
  | Option.some c =>
    if c = 0 then "UNSPECIFIED"
    else if c = 1 then "REACTANT"
    else if c = 2 then "REAGENT"
    else if c = 3 then "SOLVENT"
    else if c = 4 then "CATALYST"
    else if c = 5 then "WORKUP"
    else if c = 6 then "INTERNAL_STANDARD"
    else if c = 7 then "AUTHENTIC_STANDARD"
    else if c = 8 then "PRODUCT"
    else if c = 9 then "BYPRODUCT"
    else if c = 10 then "SIDE_PRODUCT"
    else "UNKNOWN_" ++ toString c

/-- A formatted identifier entry (`{"type": "SMILES", "value": ...}`). -/
structure FIdentifier where
  type : String
  value : Option String
deriving DecidableEq

/-- A formatted component entry. -/
structure FComponent where
  identifiers : List FIdentifier
  reaction_role : String
deriving DecidableEq

/-- A formatted outcome-product entry. -/
structure FOutcome where
  identifiers : List FIdentifier
  reaction_role : String
  is_desired_product : Bool
deriving DecidableEq

/-- The normalised record built by `format_reaction_data`. -/
structure Formatted where
  reaction_id : Option String
  success : Bool
  inputsMap : List (String × List FComponent)
  outcomes : List FOutcome
deriving DecidableEq

/-- The identifier loop (ORD.py lines 583-589 and 606-609): keep only
identifiers whose `type` code is `2`, re-tagging them as SMILES. -/
def collectSmiles (idents : List Identifier) : List FIdentifier :=
  idents.foldl
    (fun acc ident =>
      if ident.type = Option.some 2 then acc ++ [⟨"SMILES", ident.value⟩] else acc)
    []

/-- The component loop (ORD.py lines 582-598): every component is kept,
with its filtered identifier list and mapped role name. -/
def formatComponents (comps : List Component) : List FComponent :=
  comps.foldl
    (fun acc c =>
      acc ++ [⟨collectSmiles (c.identifiersList.getD []), get_reaction_role_name c.reactionRole⟩])
    []

/-- Source `format_reaction_data(reaction_data)` (ORD.py lines 561-617). -/
def format_reaction_data (res : ScrapeResult) : Option Formatted :=
  match res.data with
  | Option.none => Option.none
  | Option.some data =>
    let inputs :=
      match data.inputsMap with
      | Option.none => []
      | Option.some entries =>
        entries.foldl
          (fun acc e => acc ++ [(e.tabName, formatComponents (e.componentsList.getD []))]) []
    let outcomes :=
      match data.outcomesList with
      | Option.none => []
      | Option.some ocs =>
        ocs.foldl
          (fun acc oc =>
            (oc.productsList.getD []).foldl
              (fun acc2 p =>
                acc2 ++ [⟨collectSmiles (p.identifiersList.getD []), "PRODUCT",
                          p.isDesiredProduct.getD false⟩])
              acc)
          []
    Option.some
      { reaction_id := data.reactionId, success := res.success,
        inputsMap := inputs, outcomes := outcomes }

end ORD

namespace CRD

/-! ## The KMT miner (`src/CRD/CRD.py`) -/

/-- One parsed `molecule` node (CRD.py lines 121-134): every field is a
string, defaulting to `""` when the sub-node is missing. -/
structure Chemical where
  name : String
  smiles : String
  role : String
  inchiKey : String
  ratio : String
  notes : String
deriving DecidableEq

/-- The result of `parse_xml_data` on a well-formed payload. -/
structure ParsedData where
  chemicals : List Chemical
  raw_smiles : String
deriving DecidableEq

/-- The batch-level metadata passed to `format_reaction_data`. -/
structure Meta where
  origin : Option String
  details_url : Option String
deriving DecidableEq

/-- Source `grouped_data[role].append(item)`, creating the key at the end on
first use (CRD.py lines 98-103); Python dictionaries preserve key
insertion order. -/
def insertGrouped (g : List (String × List Chemical)) (r : String) (c : Chemical) :
    List (String × List Chemical) :=
  match g with
  | [] => [(r, [c])]
  | (k, l) :: rest => if k = r then (k, l ++ [c]) :: rest else (k, l) :: insertGrouped rest r c

/-- The grouping loop of `format_reaction_data` (CRD.py lines 98-103):
components grouped by lower-cased role, encounter order preserved. -/
def groupByRole (chems : List Chemical) : List (String × List Chemical) :=
  chems.foldl (fun g c => insertGrouped g (Py.lowerStr c.role) c) []

/-- Source `" + ".join([i.get('name') for i in items if i.get('name')])`
(CRD.py lines 106-107). -/
def joinNames (items : List Chemical) : String :=
  String.intercalate " + " ((items.filter (fun i => i.name != "")).map (fun i => i.name))

/-- The record built by CRD's `format_reaction_data` (lines 86-110):
base fields plus, for every role group, a joined display string
(`output[role]`) and the retained component list
(`output[role + "_details"]`). -/
structure Formatted where
  origin : Option String
  details_url : Option String
  smiles : String
  all_chemicals_raw : List Chemical
  roles : List (String × String)
  role_details : List (String × List Chemical)
deriving DecidableEq

/-- Source `format_reaction_data(parsed_data, metadata)` (CRD.py lines 86-110). -/
def format_reaction_data (parsed : ParsedData) (meta : Meta) : Formatted :=
  let g := groupByRole parsed.chemicals
  { origin := meta.origin
    details_url := meta.details_url
    smiles := parsed.raw_smiles
    all_chemicals_raw := parsed.chemicals
    roles := g.map (fun p => (p.1, joinNames p.2))
    role_details := g }

/-- The per-item append decision of `process_reaction_data` (CRD.py
lines 213-221): an entry is appended only when the payload parsed and
its chemical list is non-empty; otherwise the item is skipped with no
bookkeeping. -/
def append_if_parsed (parsed : Option ParsedData) (meta : Meta) (acc : List Formatted) :
    List Formatted :=
  match parsed with
  | Option.some p => if p.chemicals ≠ [] then acc ++ [format_reaction_data p meta] else acc
  | Option.none => acc

/-- Source `extract_list_items(driver)` (CRD.py lines 146-155): every
"Details" anchor with a truthy `href` yields one item, with no
membership test of any kind. -/
def extract_list_items (links : List (Option String)) : List String :=
  links.foldl
    (fun acc href =>
      match href with
      | Option.some u => if u ≠ "" then acc ++ [u] else acc
      | Option.none => acc)
    []

/-- The item references accumulated across the pages visited by
`process_reaction_data` (CRD.py lines 164-227): each page's extracted
items are processed in turn and contribute entries in order. -/
def collect_refs (pages : List (List (Option String))) : List String :=
  pages.foldl (fun acc page => acc ++ extract_list_items page) []

/-- The acceptance test of the next-link loop (CRD.py lines 234-237):
displayed, truthy `href`, target different from the current URL and
free of `#`. -/
def actionable (cur : String) (b : ORD.Control) : Bool :=
  b.displayed && Py.truthy b.href && (b.href.getD "" != cur)
    && !(Py.pyContains "#" (b.href.getD ""))

/-- The next-link search of `process_reaction_data` (CRD.py lines
231-246): the target of the first acceptable candidate. -/
def find_next (btns : List ORD.Control) (cur : String) : Option String :=
  (btns.find? (actionable cur)).map (fun b => b.href.getD "")

end CRD

namespace ORD

/-! ### Lemmas about `collectIds` -/

theorem collectIds_nil (acc : List String) : collectIds [] acc = acc := rfl

theorem collectIds_cons (h : String) (t : List String) (acc : List String) :
    collectIds (h :: t) acc =
      collectIds t
        (if extractId h ≠ "" ∧ extractId h ∉ acc then acc ++ [extractId h] else acc) := rfl

/-- Collection only ever appends. -/
theorem collectIds_sublist (links : List String) (acc : List String) :
    List.Sublist acc (collectIds links acc) := by
  induction links generalizing acc with
  | nil => exact List.Sublist.refl acc
  | cons h t ih =>
    rw [collectIds_cons]
    by_cases hc : extractId h ≠ "" ∧ extractId h ∉ acc
    · rw [if_pos hc]
      exact List.Sublist.trans (List.sublist_append_left acc [extractId h]) (ih _)
    · rw [if_neg hc]
      exact ih acc

theorem mem_of_mem_collectIds_acc {links : List String} {acc : List String} {x : String}
    (hx : x ∈ acc) : x ∈ collectIds links acc :=
  (collectIds_sublist links acc).mem hx

/-- Every non-empty identifier of a processed link ends up in the collection. -/
theorem extractId_mem_collectIds {links : List String} {acc : List String} {h : String}
    (hmem : h ∈ links) (hne : extractId h ≠ "") :
    extractId h ∈ collectIds links acc := by
  induction links generalizing acc with
  | nil => cases hmem
  | cons a t ih =>
    rw [collectIds_cons]
    rcases List.mem_cons.mp hmem with rfl | ht
    · by_cases hc : extractId h ≠ "" ∧ extractId h ∉ acc
      · rw [if_pos hc]
        exact mem_of_mem_collectIds_acc (List.mem_append_right _ (List.mem_singleton.mpr rfl))
      · rw [if_neg hc]
        push_neg at hc
        exact mem_of_mem_collectIds_acc (hc hne)
    · by_cases hc : extractId a ≠ "" ∧ extractId a ∉ acc
      · rw [if_pos hc]; exact ih ht
      · rw [if_neg hc]; exact ih ht

/-- If every identifier that the links produce is already collected,
the collection pass changes nothing. -/
theorem collectIds_fixed {links : List String} {acc : List String}
    (hall : ∀ h ∈ links, extractId h ≠ "" → extractId h ∈ acc) :
    collectIds links acc = acc := by
  induction links with
  | nil => rfl
  | cons a t ih =>
    rw [collectIds_cons]
    have hna : ¬ (extractId a ≠ "" ∧ extractId a ∉ acc) := by
      intro ⟨h1, h2⟩
      exact h2 (hall a (List.mem_cons_self a t) h1)
    rw [if_neg hna]
    exact ih (fun h hm => hall h (List.mem_cons_of_mem a hm))

/-- Scraping the same page twice adds nothing the second time. -/
theorem collectIds_idem (links : List String) (acc : List String) :
    collectIds links (collectIds links acc) = collectIds links acc :=
  collectIds_fixed (fun _h hm hne => extractId_mem_collectIds hm hne)

/-- The membership test before each append preserves `Nodup`. -/
theorem collectIds_nodup {links : List String} {acc : List String}
    (hacc : acc.Nodup) : (collectIds links acc).Nodup := by
  induction links generalizing acc with
  | nil => exact hacc
  | cons a t ih =>
    rw [collectIds_cons]
    by_cases hc : extractId a ≠ "" ∧ extractId a ∉ acc
    · rw [if_pos hc]
      exact ih (by simp [List.nodup_append, hacc, hc.2])
    · rw [if_neg hc]
      exact ih hacc

/-- The traversal loop preserves `Nodup` of the running collection. -/
theorem run_nodup (total : Option Nat) (pages : List Page) :
    ∀ (acc : List String) (prev seen : Nat), acc.Nodup →
      (run total pages acc prev seen).1.Nodup := by
  induction pages with
  | nil => intro acc prev seen hacc; exact hacc
  | cons p rest ih =>
    intro acc prev seen hacc
    show (run total (p :: rest) acc prev seen).1.Nodup
    rw [run]
    by_cases h1 : p.links = []
    · rw [if_pos h1]; exact hacc
    · rw [if_neg h1]
      by_cases h2 : totalReached total (collectIds p.links acc).length = true
      · rw [if_pos h2]; exact collectIds_nodup hacc
      · rw [if_neg h2]
        by_cases h3 : (collectIds p.links acc).length = prev
        · rw [if_pos h3]; exact collectIds_nodup hacc
        · rw [if_neg h3]
          by_cases h4 : p.hasNext = true
          · rw [if_pos h4]
            exact ih _ _ _ (collectIds_nodup hacc)
          · rw [if_neg h4]
            exact collectIds_nodup hacc

end ORD

namespace ORD

/-! ### Lemmas about the retry loop -/

/-- A fetch that fails on every attempt makes the loop consume all
remaining attempts and deliver no payload. -/
theorem scrape_loop_fail {D : Type} {fetch : Nat → Option D}
    (hfail : ∀ i, fetch i = Option.none) :
    ∀ (n a : Nat), scrape_loop fetch a n = (Option.none, n) := by
  intro n
  induction n with
  | zero => intro a; rfl
  | succ m ih =>
    intro a
    show scrape_loop fetch a (m + 1) = (Option.none, m + 1)
    rw [scrape_loop, hfail a, ih (a + 1)]

/-- The keys of either result dictionary, and the absence of any
numeric field. -/
theorem scrape_result_fields {D : Type} (fetch : Nat → Option D)
    (reaction_id : String) (max_retries : Nat) :
    ((scrape_reaction_data fetch reaction_id max_retries).1.map Prod.fst =
        ["reaction_id", "data", "success"]
      ∨ (scrape_reaction_data fetch reaction_id max_retries).1.map Prod.fst =
        ["reaction_id", "data", "success", "error"])
    ∧ (scrape_reaction_data fetch reaction_id max_retries).1.all
        (fun p => !(p.2.isNum)) = true := by
  unfold scrape_reaction_data
  rcases h : scrape_loop fetch 0 max_retries with ⟨d, n⟩
  cases d with
  | none => exact ⟨Or.inr rfl, rfl⟩
  | some v => exact ⟨Or.inl rfl, rfl⟩

end ORD

/-- C3: a reference whose underlying fetch fails on every attempt
produces exactly `max_retries` attempts, never more, and then a failure
dictionary whose error reason is the generic string
"Max retries exceeded", with no exception escaping. -/
theorem retry_bound_exact {D : Type} (fetch : Nat → Option D)
    (reaction_id : String) (max_retries : Nat)
    (hfail : ∀ i, fetch i = Option.none) :
    ORD.scrape_reaction_data fetch reaction_id max_retries =
      ([("reaction_id", ORD.PyVal.pystr reaction_id), ("data", ORD.PyVal.pynone),
        ("success", ORD.PyVal.pybool false),
        ("error", ORD.PyVal.pystr "Max retries exceeded")], max_retries) := by
  unfold ORD.scrape_reaction_data
  rw [ORD.scrape_loop_fail hfail max_retries 0]

/-- Witness for C3 at the default `max_retries = 2` and an
always-failing fetch. -/
theorem retry_bound_witness :
    ORD.scrape_reaction_data (fun _ => (Option.none : Option Unit)) "ord-x" 2 =
      ([("reaction_id", ORD.PyVal.pystr "ord-x"), ("data", ORD.PyVal.pynone),
        ("success", ORD.PyVal.pybool false),
        ("error", ORD.PyVal.pystr "Max retries exceeded")], 2) :=
  retry_bound_exact (fun _ => (Option.none : Option Unit)) "ord-x" 2 (fun _ => rfl)

/-- C8 counterexample: a fetch that fails twice and succeeds on the
third attempt (the second retry) yields the three-field success
dictionary; no field of it stores a number, so no retry count is
recorded. -/
theorem fetchresult_retry_field_counterexample :
    (ORD.scrape_reaction_data (fun i => if i = 2 then Option.some () else Option.none) "B" 3).1 =
        [("reaction_id", ORD.PyVal.pystr "B"), ("data", ORD.PyVal.pydata ()),
          ("success", ORD.PyVal.pybool true)]
      ∧ (ORD.scrape_reaction_data (fun i => if i = 2 then Option.some () else Option.none)
          "B" 3).1.any (fun p => p.2.isNum) = false := by
  constructor
  · rfl
  · rfl

/-- C8 amended: every result dictionary of `scrape_reaction_data` has
exactly the keys reaction_id, data, success — plus error on failure —
and records no retry count (no field of it holds a number). -/
theorem fetchresult_fields_no_retry_count {D : Type} (fetch : Nat → Option D)
    (reaction_id : String) (max_retries : Nat) :
    ((ORD.scrape_reaction_data fetch reaction_id max_retries).1.map Prod.fst =
        ["reaction_id", "data", "success"]
      ∨ (ORD.scrape_reaction_data fetch reaction_id max_retries).1.map Prod.fst =
        ["reaction_id", "data", "success", "error"])
    ∧ (ORD.scrape_reaction_data fetch reaction_id max_retries).1.all
        (fun p => !(p.2.isNum)) = true :=
  ORD.scrape_result_fields fetch reaction_id max_retries

/-- C5 counterexample: ORD's `format_reaction_data` promotes a payload
with zero extractable components to a normalized record anyway — an
empty record is emitted rather than the item being dropped. -/
theorem ord_emits_empty_record :
    ORD.format_reaction_data
        ⟨Option.some ⟨Option.some "ord-rx", Option.none, Option.none⟩, true⟩ =
      Option.some ⟨Option.some "ord-rx", true, [], []⟩ := rfl

/-- C5 amended: in CRD's `process_reaction_data`, an item whose payload
fails to parse or parses to zero chemicals is silently skipped — the
output list is unchanged and no failure is recorded — while a payload
with a non-empty chemical list is appended as a formatted record. -/
theorem crd_zero_components_dropped (p : CRD.ParsedData) (meta : CRD.Meta)
    (acc : List CRD.Formatted) :
    (p.chemicals = [] → CRD.append_if_parsed (Option.some p) meta acc = acc)
    ∧ (p.chemicals ≠ [] →
        CRD.append_if_parsed (Option.some p) meta acc =
          acc ++ [CRD.format_reaction_data p meta])
    ∧ CRD.append_if_parsed Option.none meta acc = acc := by
  refine ⟨fun h => ?_, fun h => ?_, rfl⟩
  · show (if p.chemicals ≠ [] then acc ++ [CRD.format_reaction_data p meta] else acc) = acc
    rw [if_neg (by simp [h])]
  · show (if p.chemicals ≠ [] then acc ++ [CRD.format_reaction_data p meta] else acc) =
      acc ++ [CRD.format_reaction_data p meta]
    rw [if_pos h]

/-- Witness for C5: a parsed payload with zero chemicals leaves the
output untouched. -/
theorem crd_zero_components_witness :
    CRD.append_if_parsed (Option.some ⟨[], "C>>O"⟩) ⟨Option.none, Option.none⟩ [] = [] :=
  (crd_zero_components_dropped ⟨[], "C>>O"⟩ ⟨Option.none, Option.none⟩ []).1 rfl

/-- C6 counterexample: ORD's next-button search clicks the first
displayed, enabled, non-disabled candidate without ever inspecting its
target, so a control whose target equals the current page URL is
activated rather than skipped. -/
theorem ord_next_button_ignores_target :
    ¬ (∀ (btns : List ORD.Control) (cur : String) (b : ORD.Control),
        ORD.find_next_button btns = Option.some b → b.href ≠ Option.some cur) := by
  intro hclaim
  exact hclaim
    [⟨true, true, Option.none, Option.none, Option.none, Option.some "https://site/browse"⟩]
    "https://site/browse"
    ⟨true, true, Option.none, Option.none, Option.none, Option.some "https://site/browse"⟩
    (by decide) rfl

/-- C6 amended: CRD's next-link search does skip a candidate whose
target equals the current URL or contains a fragment: any link it
returns is non-empty, differs from the current URL, is fragment-free,
and belongs to a displayed candidate.  ORD's next-button search checks
only displayed/enabled/disabled state and ignores the target. -/
theorem crd_next_link_skips_same_and_fragment (btns : List ORD.Control) (cur h : String)
    (hfind : CRD.find_next btns cur = Option.some h) :
    h ≠ "" ∧ h ≠ cur ∧ Py.pyContains "#" h = false ∧
      ∃ b ∈ btns, b.displayed = true ∧ b.href = Option.some h := by
  unfold CRD.find_next at hfind
  rw [Option.map_eq_some'] at hfind
  obtain ⟨b, hb, hmap⟩ := hfind
  have hp : CRD.actionable cur b = true := List.find?_some hb
  have hmem : b ∈ btns := List.mem_of_find?_eq_some hb
  unfold CRD.actionable at hp
  simp only [Bool.and_eq_true, Bool.not_eq_true', bne_iff_ne, ne_eq] at hp
  obtain ⟨⟨⟨hdisp, htr⟩, hne⟩, hnohash⟩ := hp
  cases hhref : b.href with
  | none => rw [hhref] at htr; cases htr
  | some u =>
    rw [hhref] at htr hne hnohash hmap
    simp only [Option.getD_some] at hne hnohash hmap
    subst hmap
    have hune : u ≠ "" := by
      intro hu
      rw [hu] at htr
      simp [Py.truthy] at htr
      exact absurd htr (by decide)
    exact ⟨hune, hne, hnohash, b, hmem, hdisp, hhref⟩

/-- Witness for C6: among a same-URL link, a fragment link and a good
link, CRD's search returns the good one. -/
theorem crd_next_link_witness :
    (("https://kmt/page2" : String) ≠ "" ∧ ("https://kmt/page2" : String) ≠ "https://kmt/page1"
        ∧ Py.pyContains "#" "https://kmt/page2" = false
        ∧ ∃ b ∈ [(⟨true, true, Option.none, Option.none, Option.none,
                    Option.some "https://kmt/page1"⟩ : ORD.Control),
                 ⟨true, true, Option.none, Option.none, Option.none,
                    Option.some "https://kmt/page1#top"⟩,
                 ⟨true, true, Option.none, Option.none, Option.none,
                    Option.some "https://kmt/page2"⟩],
            b.displayed = true ∧ b.href = Option.some "https://kmt/page2") :=
  crd_next_link_skips_same_and_fragment
    [⟨true, true, Option.none, Option.none, Option.none, Option.some "https://kmt/page1"⟩,
     ⟨true, true, Option.none, Option.none, Option.none, Option.some "https://kmt/page1#top"⟩,
     ⟨true, true, Option.none, Option.none, Option.none, Option.some "https://kmt/page2"⟩]
    "https://kmt/page1" "https://kmt/page2" (by decide)

/-- C1 counterexample: the CRD traversal performs no deduplication, so
the same item reference appearing on two consecutive listing pages is
collected twice. -/
theorem crd_duplicates_not_deduped :
    ¬ (CRD.collect_refs [[Option.some "https://kmt/detail/7"],
        [Option.some "https://kmt/detail/7"]]).Nodup := by
  decide

/-- C1 amended: the ORD traversal's reference sequence contains no
duplicate identifiers for any page sequence, with deduplication keyed
on the extracted identifier — two distinct raw URLs sharing a final
path segment collapse to one entry. -/
theorem ord_dedup_by_identifier :
    (∀ (total : Option Nat) (pages : List ORD.Page),
        (ORD.get_all_dataset_ids total pages).1.Nodup)
    ∧ ORD.collectIds ["browse/ord_dataset-a", "cache/ord_dataset-a"] [] =
        ["ord_dataset-a"] := by
  constructor
  · intro total pages
    exact ORD.run_nodup total pages [] 0 0 List.nodup_nil
  · decide

/-- C4: a listing whose (non-empty) item set never changes across
consecutive pages makes the traversal stop right after the second
page — the stuck check fires instead of the next-page control — for
any number of further identical pages. -/
theorem stuck_termination_two_pages (p : ORD.Page) (k : Nat)
    (hnext : p.hasNext = true) (hne : ORD.collectIds p.links [] ≠ []) :
    ORD.get_all_dataset_ids Option.none (p :: p :: List.replicate k p) =
      (ORD.collectIds p.links [], 2) := by
  have hlinks : p.links ≠ [] := by
    intro h
    exact hne (by rw [h]; rfl)
  have ht : ∀ n, ¬ (ORD.totalReached Option.none n = true) := by
    intro n h
    simp [ORD.totalReached] at h
  have hcur : (ORD.collectIds p.links []).length ≠ 0 := by
    intro h
    exact hne (List.length_eq_zero.mp h)
  unfold ORD.get_all_dataset_ids
  rw [ORD.run]
  rw [if_neg hlinks, if_neg (ht _), if_neg hcur, if_pos hnext]
  rw [ORD.run]
  rw [if_neg hlinks, ORD.collectIds_idem, if_neg (ht _), if_pos rfl]

/-- Witness for C4: two identical one-link pages terminate after the
second page with the single extracted identifier. -/
theorem stuck_termination_witness :
    ORD.get_all_dataset_ids Option.none
        [⟨["dataset/ord_dataset-a"], true⟩, ⟨["dataset/ord_dataset-a"], true⟩] =
      (["ord_dataset-a"], 2) := by
  have h := stuck_termination_two_pages ⟨["dataset/ord_dataset-a"], true⟩ 0 rfl (by decide)
  exact h.trans (by decide)

namespace CRD

/-! ### Lemmas about role grouping -/

/-- Looking a key up after one grouped insertion. -/
theorem lookup_insertGrouped (g : List (String × List Chemical)) (key r : String) (c : Chemical) :
    List.lookup r (insertGrouped g key c) =
      (if r = key then
        match List.lookup r g with
        | Option.some l => Option.some (l ++ [c])
        | Option.none => Option.some [c]
      else List.lookup r g) := by
  induction g with
  | nil =>
    by_cases h : r = key
    · simp [insertGrouped, List.lookup, h]
    · have hb : (r == key) = false := by simp [h]
      simp [insertGrouped, List.lookup, h, hb]
  | cons p rest ih =>
    rcases p with ⟨k, l⟩
    rw [insertGrouped]
    by_cases hk : k = key
    · rw [if_pos hk]
      by_cases hr : r = k
      · subst hr; subst hk
        simp [List.lookup]
      · have hrk : ¬ (r == k) = true := by simp [hr]
        by_cases hrkey : r = key
        · exact absurd (hrkey.trans hk.symm) hr
        · simp [List.lookup, hrk, hrkey]
    · rw [if_neg hk]
      by_cases hr : r = k
      · subst hr
        have hrkey : ¬ (r = key) := hk
        simp [List.lookup, hrkey]
      · have hrk : ¬ (r == k) = true := by simp [hr]
        simp only [List.lookup, hrk, cond_false]
        rw [ih]

/-- Looking a role up in the grouping fold, for any starting state. -/
theorem lookup_groupByRole_aux (chems : List Chemical) :
    ∀ (g : List (String × List Chemical)) (r : String),
      List.lookup r (chems.foldl (fun g c => insertGrouped g (Py.lowerStr c.role) c) g) =
        (match List.lookup r g with
         | Option.some l =>
           Option.some (l ++ chems.filter (fun c => Py.lowerStr c.role == r))
         | Option.none =>
           if chems.filter (fun c => Py.lowerStr c.role == r) = [] then Option.none
           else Option.some (chems.filter (fun c => Py.lowerStr c.role == r))) := by
  induction chems with
  | nil =>
    intro g r
    cases h : List.lookup r g <;> simp [h]
  | cons c rest ih =>
    intro g r
    rw [List.foldl_cons, ih (insertGrouped g (Py.lowerStr c.role) c) r,
      lookup_insertGrouped]
    by_cases hr : r = Py.lowerStr c.role
    · rw [if_pos hr]
      have hc : (Py.lowerStr c.role == r) = true := by simp [hr]
      cases h : List.lookup r g with
      | some l => simp [h, List.filter_cons, hc, List.append_assoc]
      | none => simp [h, List.filter_cons, hc]
    · rw [if_neg hr]
      have hc : ¬ ((Py.lowerStr c.role == r) = true) := by
        simp only [beq_iff_eq]
        exact fun h => hr h.symm
      cases h : List.lookup r g with
      | some l => simp [h, List.filter_cons, hc]
      | none => simp [h, List.filter_cons, hc]

/-- Association lookup commutes with mapping the values. -/
theorem lookup_map_snd {β γ : Type} (g : List (String × β)) (f : β → γ) (r : String) :
    List.lookup r (g.map (fun p => (p.1, f p.2))) = (List.lookup r g).map f := by
  induction g with
  | nil => rfl
  | cons p rest ih =>
    by_cases h : r = p.1
    · simp [List.lookup, h]
    · have hb : ¬ (r == p.1) = true := by simp [h]
      simp [List.lookup, hb, ih]

end CRD

/-- C7: CRD's normalizer groups components by lower-cased role (so
"reactant" and "REACTANT" share a group), maps every present role to
the " + "-joined non-empty names in encounter order, retains the full
per-role component list, and on the spec's three-component example
produces reactant "X + Y" and product "Z". -/
theorem role_grouping_join :
    (∀ (chems : List CRD.Chemical) (r : String),
        List.lookup r (CRD.groupByRole chems) =
          (if chems.filter (fun c => Py.lowerStr c.role == r) = [] then Option.none
           else Option.some (chems.filter (fun c => Py.lowerStr c.role == r))))
    ∧ (∀ (parsed : CRD.ParsedData) (meta : CRD.Meta) (r : String),
        List.lookup r (CRD.format_reaction_data parsed meta).roles =
          (List.lookup r (CRD.groupByRole parsed.chemicals)).map CRD.joinNames
        ∧ (CRD.format_reaction_data parsed meta).role_details =
          CRD.groupByRole parsed.chemicals)
    ∧ (CRD.format_reaction_data
          ⟨[⟨"X", "", "reactant", "", "", ""⟩, ⟨"Y", "", "REACTANT", "", "", ""⟩,
            ⟨"Z", "", "product", "", "", ""⟩], "C>>O"⟩ ⟨Option.none, Option.none⟩).roles =
        [("reactant", "X + Y"), ("product", "Z")]
    ∧ (CRD.format_reaction_data
          ⟨[⟨"X", "", "reactant", "", "", ""⟩, ⟨"Y", "", "REACTANT", "", "", ""⟩,
            ⟨"Z", "", "product", "", "", ""⟩], "C>>O"⟩ ⟨Option.none, Option.none⟩).role_details =
        [("reactant", [⟨"X", "", "reactant", "", "", ""⟩, ⟨"Y", "", "REACTANT", "", "", ""⟩]),
         ("product", [⟨"Z", "", "product", "", "", ""⟩])] := by
  refine ⟨?_, ?_, ?_, ?_⟩
  · intro chems r
    have h := CRD.lookup_groupByRole_aux chems [] r
    simpa [CRD.groupByRole, List.lookup] using h
  · intro parsed meta r
    exact ⟨CRD.lookup_map_snd (CRD.groupByRole parsed.chemicals) CRD.joinNames r, rfl⟩
  · decide
  · decide

namespace ORD

/-! ### Lemmas about the ORD normaliser -/

/-- An append-only fold builds the mapped list. -/
theorem foldl_append_map {β γ : Type} (l : List β) (f : β → γ) :
    ∀ acc : List γ, l.foldl (fun a x => a ++ [f x]) acc = acc ++ l.map f := by
  induction l with
  | nil => intro acc; simp
  | cons x rest ih => intro acc; simp [ih, List.append_assoc]

/-- The identifier loop keeps exactly the type-2 identifiers, in
order, re-tagged as SMILES. -/
theorem collectSmiles_eq (idents : List Identifier) :
    collectSmiles idents =
      (idents.filter (fun i => i.type == Option.some 2)).map
        (fun i => ⟨"SMILES", i.value⟩) := by
  have haux : ∀ (l : List Identifier) (acc : List FIdentifier),
      l.foldl
        (fun acc ident =>
          if ident.type = Option.some 2 then acc ++ [⟨"SMILES", ident.value⟩] else acc) acc =
        acc ++ (l.filter (fun i => i.type == Option.some 2)).map
          (fun i => (⟨"SMILES", i.value⟩ : FIdentifier)) := by
    intro l
    induction l with
    | nil => intro acc; simp
    | cons i rest ih =>
      intro acc
      by_cases h : i.type = Option.some 2
      · have hb : (i.type == Option.some 2) = true := by simp [h]
        simp [List.foldl_cons, if_pos h, ih, List.filter_cons, hb, List.append_assoc]
      · have hb : (i.type == Option.some 2) = false := by simp [h]
        simp [List.foldl_cons, if_neg h, ih, List.filter_cons, hb]
  exact haux idents []

/-- The component loop preserves every component. -/
theorem formatComponents_eq (comps : List Component) :
    formatComponents comps =
      comps.map
        (fun c =>
          ⟨collectSmiles (c.identifiersList.getD []),
            get_reaction_role_name c.reactionRole⟩) := by
  have h := foldl_append_map comps
    (fun c : Component =>
      (⟨collectSmiles (c.identifiersList.getD []),
        get_reaction_role_name c.reactionRole⟩ : FComponent)) []
  simpa [formatComponents] using h

/-- A fold that appends a computed block per element builds the
flattened mapped list. -/
theorem foldl_append_flatten {β γ : Type} (l : List β) (g : β → List γ) :
    ∀ acc : List γ, l.foldl (fun a x => a ++ g x) acc = acc ++ (l.map g).flatten := by
  induction l with
  | nil => intro acc; simp
  | cons x rest ih => intro acc; simp [ih, List.append_assoc]

end ORD

/-- C10: ORD's normaliser keeps only type-2 (SMILES) identifiers for
both input components and outcome products, keeps a component with no
SMILES identifiers (its identifier list just becomes empty), tags every
outcome product with role "PRODUCT", and defaults is_desired_product
to false. -/
theorem smiles_only_filter (data : ORD.ReactionData) (s : Bool) :
    ORD.format_reaction_data ⟨Option.some data, s⟩ =
      Option.some
        { reaction_id := data.reactionId
          success := s
          inputsMap :=
            (data.inputsMap.getD []).map
              (fun e => (e.tabName, ORD.formatComponents (e.componentsList.getD [])))
          outcomes :=
            ((data.outcomesList.getD []).map
              (fun oc =>
                (oc.productsList.getD []).map
                  (fun p =>
                    ⟨ORD.collectSmiles (p.identifiersList.getD []), "PRODUCT",
                      p.isDesiredProduct.getD false⟩))).flatten }
    ∧ (∀ idents : List ORD.Identifier,
        ORD.collectSmiles idents =
          (idents.filter (fun i => i.type == Option.some 2)).map
            (fun i => ⟨"SMILES", i.value⟩))
    ∧ (∀ comps : List ORD.Component,
        ORD.formatComponents comps =
          comps.map
            (fun c =>
              ⟨ORD.collectSmiles (c.identifiersList.getD []),
                ORD.get_reaction_role_name c.reactionRole⟩)
        ∧ (ORD.formatComponents comps).length = comps.length) := by
  refine ⟨?_, ORD.collectSmiles_eq, ?_⟩
  · cases hi : data.inputsMap with
    | none =>
      cases ho : data.outcomesList with
      | none => simp [ORD.format_reaction_data, hi, ho]
      | some ocs =>
        simp only [ORD.format_reaction_data, hi, ho, ORD.foldl_append_map,
          ORD.foldl_append_flatten]
        simp
    | some entries =>
      cases ho : data.outcomesList with
      | none =>
        simp only [ORD.format_reaction_data, hi, ho, ORD.foldl_append_map,
          ORD.foldl_append_flatten]
        simp
      | some ocs =>
        simp only [ORD.format_reaction_data, hi, ho, ORD.foldl_append_map,
          ORD.foldl_append_flatten]
        simp
  · intro comps
    exact ⟨ORD.formatComponents_eq comps, by simp [ORD.formatComponents_eq]⟩

namespace ORD

/-! ### Lemmas about the discovery-rank dictionary -/

/-- An identifier that never occurs leaves the dictionary unchanged. -/
theorem reaction_order_go_not_mem [DecidableEq α] {x : α} :
    ∀ (l : List α) (i : Nat) (f : α → Option Nat), x ∉ l → reaction_order_go i l f x = f x := by
  intro l
  induction l with
  | nil => intro i f _; rfl
  | cons a rest ih =>
    intro i f hx
    have hxa : x ≠ a := fun h => hx (h ▸ List.mem_cons_self a rest)
    have hxr : x ∉ rest := fun h => hx (List.mem_cons_of_mem a h)
    rw [reaction_order_go, ih (i + 1) _ hxr]
    simp [hxa]

/-- The dictionary maps an identifier with no later occurrence to the
index at which it was inserted. -/
theorem reaction_order_go_get [DecidableEq α] :
    ∀ (l : List α) (j : Nat) (hj : j < l.length) (base : Nat) (f : α → Option Nat),
      l.get ⟨j, hj⟩ ∉ l.drop (j + 1) →
      reaction_order_go base l f (l.get ⟨j, hj⟩) = Option.some (base + j) := by
  intro l
  induction l with
  | nil => intro j hj; exact absurd hj (Nat.not_lt_zero j)
  | cons a rest ih =>
    intro j hj base f hnd
    cases j with
    | zero =>
      have hdrop : (a :: rest).drop 1 = rest := rfl
      have hget : (a :: rest).get ⟨0, hj⟩ = a := rfl
      rw [hget] at hnd ⊢
      rw [hdrop] at hnd
      rw [reaction_order_go, reaction_order_go_not_mem rest (base + 1) _ hnd]
      simp
    | succ m =>
      have hm : m < rest.length := Nat.lt_of_succ_lt_succ hj
      have hget : (a :: rest).get ⟨m + 1, hj⟩ = rest.get ⟨m, hm⟩ := rfl
      have hdrop : (a :: rest).drop (m + 1 + 1) = rest.drop (m + 1) := rfl
      rw [hget] at hnd ⊢
      rw [hdrop] at hnd
      rw [reaction_order_go, ih m hm (base + 1) _ hnd]
      congr 1
      omega

/-- In a duplicate-free list, an element never recurs after its
position. -/
theorem nodup_get_not_mem_drop {l : List α} (h : l.Nodup) (j : Nat) (hj : j < l.length) :
    l.get ⟨j, hj⟩ ∉ l.drop (j + 1) := by
  intro hmem
  obtain ⟨⟨m, hm⟩, hget⟩ := List.mem_iff_get.mp hmem
  rw [List.get_eq_getElem, List.getElem_drop] at hget
  have hlt : j + 1 + m < l.length := by
    have hlen := hm
    rw [List.length_drop] at hlen
    omega
  have hfin : (⟨j + 1 + m, hlt⟩ : Fin l.length) = ⟨j, hj⟩ := by
    apply h.get_inj_iff.mp
    rw [List.get_eq_getElem, List.get_eq_getElem]
    exact hget
  have := Fin.mk.injEq _ _ _ _ ▸ hfin
  omega

/-- In a duplicate-free discovery list, the rank dictionary maps the
`j`-th identifier to `j`. -/
theorem reaction_order_get [DecidableEq α] {ids : List α} (hnd : ids.Nodup)
    (j : Nat) (hj : j < ids.length) :
    reaction_order ids (ids.get ⟨j, hj⟩) = Option.some j := by
  have h := reaction_order_go_get ids j hj 0 (fun _ => Option.none)
    (nodup_get_not_mem_drop hnd j hj)
  simpa [reaction_order] using h

/-- An identifier that was never discovered has no rank. -/
theorem reaction_order_not_mem [DecidableEq α] {ids : List α} {x : α} (hx : x ∉ ids) :
    reaction_order ids x = Option.none :=
  reaction_order_go_not_mem ids 0 _ hx

/-- Every stored rank is below `base` plus the number of identifiers
inserted. -/
theorem reaction_order_go_lt [DecidableEq α] :
    ∀ (l : List α) (base : Nat) (f : α → Option Nat) (x : α) (k : Nat),
      (∀ y m, f y = Option.some m → m < base) →
      reaction_order_go base l f x = Option.some k → k < base + l.length := by
  intro l
  induction l with
  | nil =>
    intro base f x k hf hgo
    have := hf x k hgo
    simpa using this
  | cons a rest ih =>
    intro base f x k hf hgo
    rw [reaction_order_go] at hgo
    have hf2 : ∀ y m,
        (fun y => if y = a then Option.some base else f y) y = Option.some m →
          m < base + 1 := by
      intro y m hy
      by_cases hya : y = a
      · simp [hya] at hy
        omega
      · simp [hya] at hy
        exact Nat.lt_succ_of_lt (hf y m hy)
    have := ih (base + 1) _ x k hf2 hgo
    rw [List.length_cons]
    omega

/-- Every rank the dictionary assigns is a valid discovery index. -/
theorem reaction_order_lt [DecidableEq α] {ids : List α} {x : α} {k : Nat}
    (h : reaction_order ids x = Option.some k) : k < ids.length := by
  have hk := reaction_order_go_lt ids 0 (fun _ => Option.none) x k
    (by intro y m hy; cases hy) h
  simpa using hk

/-- A discovered identifier has a rank, namely its unique position. -/
theorem reaction_order_mem [DecidableEq α] {ids : List α} (hnd : ids.Nodup) {x : α}
    (hx : x ∈ ids) :
    ∃ (j : Nat) (hj : j < ids.length),
      ids.get ⟨j, hj⟩ = x ∧ reaction_order ids x = Option.some j := by
  obtain ⟨⟨j, hj⟩, hget⟩ := List.mem_iff_get.mp hx
  exact ⟨j, hj, hget, hget ▸ reaction_order_get hnd j hj⟩

/-- On discovered identifiers the sort key is injective. -/
theorem sortKey_inj [DecidableEq α] {ids : List α} (hnd : ids.Nodup) {x y : α}
    (hx : x ∈ ids) (hy : y ∈ ids) (hk : sortKey ids x = sortKey ids y) : x = y := by
  obtain ⟨jx, hjx, hgx, hox⟩ := reaction_order_mem hnd hx
  obtain ⟨jy, hjy, hgy, hoy⟩ := reaction_order_mem hnd hy
  rw [sortKey, hox, sortKey, hoy] at hk
  simp only [Option.getD_some] at hk
  subst hk
  rw [← hgx, ← hgy]

end ORD

namespace ORD

/-- Transitivity of the boolean key comparison used by the sort. -/
theorem sbd_trans [DecidableEq α] (ids : List α) :
    ∀ (a b c : RxResult α),
      decide (sortKey ids a.reaction_id ≤ sortKey ids b.reaction_id) = true →
      decide (sortKey ids b.reaction_id ≤ sortKey ids c.reaction_id) = true →
      decide (sortKey ids a.reaction_id ≤ sortKey ids c.reaction_id) = true := by
  intro a b c h1 h2
  simp only [decide_eq_true_eq] at *
  exact Nat.le_trans h1 h2

/-- Totality of the boolean key comparison used by the sort. -/
theorem sbd_total [DecidableEq α] (ids : List α) :
    ∀ (a b : RxResult α),
      (decide (sortKey ids a.reaction_id ≤ sortKey ids b.reaction_id)
        || decide (sortKey ids b.reaction_id ≤ sortKey ids a.reaction_id)) = true := by
  intro a b
  simp only [Bool.or_eq_true, decide_eq_true_eq]
  exact Nat.le_total _ _

/-- The ordering stage outputs a key-sorted sequence. -/
theorem sort_by_discovery_sorted [DecidableEq α] (ids : List α) (rs : List (RxResult α)) :
    (sort_by_discovery ids rs).Pairwise
      (fun x y => sortKey ids x.reaction_id ≤ sortKey ids y.reaction_id) := by
  have h := List.sorted_mergeSort (sbd_trans ids) (sbd_total ids) rs
  exact h.imp (fun hab => by simpa using hab)

/-- The ordering stage permutes and never loses results. -/
theorem sort_by_discovery_perm [DecidableEq α] (ids : List α) (rs : List (RxResult α)) :
    (sort_by_discovery ids rs).Perm rs :=
  List.mergeSort_perm rs _

end ORD

/-- C2 amended: for any duplicate-free discovery list and any
completion-ordered batch of results whose references are a permutation
of it (any `N ≥ 0`), the ordering stage restores exactly the discovery
order; and a result whose reference has no entry in the discovery
index — which is assigned the sentinel rank 999999 — is placed after
all indexed results provided the batch holds at most 999999 items. -/
theorem order_restoration {α : Type} [DecidableEq α] (ids : List α)
    (rs : List (ORD.RxResult α)) (hnd : ids.Nodup) :
    ((rs.map (fun r => r.reaction_id)).Perm ids →
        (ORD.sort_by_discovery ids rs).map (fun r => r.reaction_id) = ids)
    ∧ (ids.length ≤ 999999 →
        ∀ (i j : Nat) (hi : i < (ORD.sort_by_discovery ids rs).length)
          (hj : j < (ORD.sort_by_discovery ids rs).length), i < j →
          ORD.reaction_order ids
              ((ORD.sort_by_discovery ids rs).get ⟨i, hi⟩).reaction_id = Option.none →
          ORD.reaction_order ids
              ((ORD.sort_by_discovery ids rs).get ⟨j, hj⟩).reaction_id = Option.none) := by
  constructor
  · intro hperm
    have houtmap : ((ORD.sort_by_discovery ids rs).map (fun r => r.reaction_id)).Perm ids :=
      ((ORD.sort_by_discovery_perm ids rs).map (fun r => r.reaction_id)).trans hperm
    have hnodup_out : ((ORD.sort_by_discovery ids rs).map (fun r => r.reaction_id)).Nodup :=
      houtmap.nodup_iff.mpr hnd
    have hmap_le : ((ORD.sort_by_discovery ids rs).map (fun r => r.reaction_id)).Pairwise
        (fun a b : α => ORD.sortKey ids a ≤ ORD.sortKey ids b) :=
      List.Pairwise.map _ (fun a b h => h) (ORD.sort_by_discovery_sorted ids rs)
    have hstrict : ((ORD.sort_by_discovery ids rs).map (fun r => r.reaction_id)).Pairwise
        (fun a b : α => ORD.sortKey ids a < ORD.sortKey ids b) := by
      refine List.Pairwise.imp_of_mem ?_ (hmap_le.and hnodup_out)
      intro a b ha hb hab
      rcases hab with ⟨hle, hne⟩
      rcases Nat.lt_or_ge (ORD.sortKey ids a) (ORD.sortKey ids b) with h | h
      · exact h
      · exact absurd
          (ORD.sortKey_inj hnd (houtmap.subset ha) (houtmap.subset hb)
            (Nat.le_antisymm hle h)) hne
    have hids_sorted : ids.Pairwise (fun a b : α => ORD.sortKey ids a < ORD.sortKey ids b) := by
      apply List.pairwise_iff_get.mpr
      intro i j hij
      have hio := ORD.reaction_order_get hnd i.1 i.2
      have hjo := ORD.reaction_order_get hnd j.1 j.2
      simp only [ORD.sortKey, hio, hjo, Option.getD_some]
      exact hij
    haveI : IsAntisymm α (fun a b => ORD.sortKey ids a < ORD.sortKey ids b) :=
      ⟨fun a b h1 h2 => absurd (Nat.lt_trans h1 h2) (Nat.lt_irrefl _)⟩
    exact List.eq_of_perm_of_sorted houtmap hstrict hids_sorted
  · intro hlen i j hi hj hij hnone
    have hrel := List.pairwise_iff_get.mp (ORD.sort_by_discovery_sorted ids rs)
      ⟨i, hi⟩ ⟨j, hj⟩ hij
    cases hj2 : ORD.reaction_order ids
        ((ORD.sort_by_discovery ids rs).get ⟨j, hj⟩).reaction_id with
    | none => rfl
    | some k =>
      have hk : k < ids.length := ORD.reaction_order_lt hj2
      simp only [ORD.sortKey, hnone, hj2, Option.getD_none, Option.getD_some] at hrel
      omega

/-- Witness for C2 at a two-item batch arriving in reversed completion
order. -/
theorem order_restoration_witness :
    (ORD.sort_by_discovery [10, 20]
        [⟨20, true⟩, ⟨10, false⟩]).map (fun r => r.reaction_id) = [10, 20] :=
  (order_restoration [10, 20] [⟨20, true⟩, ⟨10, false⟩] (by decide)).1
    (List.Perm.swap 10 20 [])

/-- C2 counterexample: with one million discovered items, an indexed
result of rank 999999 shares the sentinel key 999999 of an unindexed
result, and the stable sort leaves the unindexed result in front of
it — so an unindexed result is not always placed after all indexed
results. -/
theorem unindexed_sentinel_counterexample :
    ¬ (∀ (ids : List Nat) (rs : List (ORD.RxResult Nat)) (i j : Nat)
          (hi : i < (ORD.sort_by_discovery ids rs).length)
          (hj : j < (ORD.sort_by_discovery ids rs).length),
        ORD.reaction_order ids
            ((ORD.sort_by_discovery ids rs).get ⟨i, hi⟩).reaction_id = Option.none →
        ORD.reaction_order ids
            ((ORD.sort_by_discovery ids rs).get ⟨j, hj⟩).reaction_id ≠ Option.none →
        j < i) := by
  intro hclaim
  have hu : ORD.reaction_order (List.range 1000000) 1000000 = Option.none :=
    ORD.reaction_order_not_mem (by simp [List.mem_range])
  have h9len : (999999 : Nat) < (List.range 1000000).length := by
    rw [List.length_range]
    omega
  have hr : ORD.reaction_order (List.range 1000000) 999999 = Option.some 999999 := by
    have h := ORD.reaction_order_get (List.nodup_range 1000000) 999999 h9len
    rw [List.get_eq_getElem, List.getElem_range] at h
    exact h
  have hle : decide (ORD.sortKey (List.range 1000000) ((⟨1000000, true⟩ :
        ORD.RxResult Nat).reaction_id) ≤
      ORD.sortKey (List.range 1000000) ((⟨999999, true⟩ :
        ORD.RxResult Nat).reaction_id)) = true := by
    simp [ORD.sortKey, hu, hr]
  have hsub : List.Sublist
      [(⟨1000000, true⟩ : ORD.RxResult Nat), ⟨999999, true⟩]
      (ORD.sort_by_discovery (List.range 1000000)
        [⟨1000000, true⟩, ⟨999999, true⟩]) :=
    List.pair_sublist_mergeSort (ORD.sbd_trans (List.range 1000000))
      (ORD.sbd_total (List.range 1000000)) hle (List.Sublist.refl _)
  have hlen2 : (ORD.sort_by_discovery (List.range 1000000)
      [(⟨1000000, true⟩ : ORD.RxResult Nat), ⟨999999, true⟩]).length = 2 := by
    unfold ORD.sort_by_discovery
    rw [List.length_mergeSort]
    rfl
  have hsort : ORD.sort_by_discovery (List.range 1000000)
      [(⟨1000000, true⟩ : ORD.RxResult Nat), ⟨999999, true⟩] =
      [⟨1000000, true⟩, ⟨999999, true⟩] :=
    (List.Sublist.eq_of_length hsub (by rw [hlen2]; rfl)).symm
  have hkey := hclaim (List.range 1000000) [⟨1000000, true⟩, ⟨999999, true⟩] 0 1
  rw [hsort] at hkey
  have hfalse := hkey (by decide) (by decide)
    (show ORD.reaction_order (List.range 1000000) 1000000 = Option.none from hu)
    (show ORD.reaction_order (List.range 1000000) 999999 ≠ Option.none by
      rw [hr]
      exact fun h => Option.noConfusion h)
  exact absurd hfalse (by decide)
